import Mathlib

/-!
# Verification of the anki-vector incremental sync and duplicate-detection core

Shallow embedding of `anki_vector_tool.py` (class `AnkiVectorManager` and the
module-level `sanitize_collection_name`).  External collaborators (AnkiConnect,
ChromaDB) are modelled by explicit response values and failure flags; the
collection state is a finite set of entry identifiers `(noteId, facet)`,
mirroring the `"{note_id}_front"` / `"{note_id}_back"` id scheme of the source.
Python floats used for distances/thresholds are embedded as rationals: every
claim about them concerns only order comparisons.
-/

namespace AnkiVector

/-! ## Data model -/

/-- One facet of a note inside the vector collection: the source stores each
note as the two entries `"{note_id}_front"` and `"{note_id}_back"`, with a
`type` metadata field `"front"` / `"back"`. -/
inductive Facet where
  | front
  | back
deriving DecidableEq, Repr

/-- An Anki note as returned by `notesInfo`.  `front`/`back` model
`card["fields"]["Front"]["value"]` and `card["fields"]["Back"]["value"]`;
`none` models a note whose field access would raise `KeyError`. -/
structure Card where
  noteId : Nat
  front : Option String
  back : Option String
deriving DecidableEq, Repr

/-- Metadata record attached to one collection entry (see `process_card_batch`). -/
structure Meta where
  note_id : Nat
  type : Facet
  front : String
  back : String
deriving DecidableEq, Repr

/-- Entry identifier in a deck's collection: `(n, .front)` stands for the
string id `"{n}_front"`, `(n, .back)` for `"{n}_back"`. -/
abbrev EntryId := Nat × Facet

/-! ## `sanitize_collection_name` (lines 26–39) -/

/-- Characters kept unchanged by the substitution `re.sub(r"[^A-Za-z0-9_-]", "_", ...)`. -/
def isWordChar (c : Char) : Bool :=
  (('A' ≤ c && c ≤ 'Z') || ('a' ≤ c && c ≤ 'z') || ('0' ≤ c && c ≤ '9')
    || c = '_' || c = '-')

/-- ASCII alphanumeric, the class `[A-Za-z0-9]` used by the stripping regexes. -/
def isAlnumAscii (c : Char) : Bool :=
  (('A' ≤ c && c ≤ 'Z') || ('a' ≤ c && c ≤ 'z') || ('0' ≤ c && c ≤ '9'))

/-- `re.sub(r"[^A-Za-z0-9_-]", "_", deck_name)` (line 32). -/
def replaceBad (s : List Char) : List Char :=
  s.map fun c => if isWordChar c then c else '_'

/-- The two anchored substitutions of lines 33–34: drop the leading and the
trailing run of non-alphanumeric characters. -/
def stripEnds (s : List Char) : List Char :=
  (s.dropWhile fun c => !isAlnumAscii c).rdropWhile fun c => !isAlnumAscii c

/-- `sanitized.ljust(3, "_")` applied only when the length is below 3
(lines 35–36). -/
def padTo3 (s : List Char) : List Char :=
  if s.length < 3 then s ++ List.replicate (3 - s.length) '_' else s

/-- `sanitized[:63]` applied only when the length exceeds 63 (lines 37–38). -/
def truncate63 (s : List Char) : List Char :=
  if s.length > 63 then s.take 63 else s

/-- `sanitize_collection_name` on the character list of the deck name. -/
def sanitizeChars (s : List Char) : List Char :=
  truncate63 (padTo3 (stripEnds (replaceBad s)))

/-- `sanitize_collection_name(deck_name)` as a function on strings. -/
def sanitize_collection_name (deckName : String) : String :=
  ⟨sanitizeChars deckName.data⟩

/-- Modelled from the spec (§6): the sanitizing transform described there as a
four-step composition — replace characters outside `[A-Za-z0-9_-]` with `'_'`,
strip leading/trailing non-alphanumerics, right-pad with `'_'` to a 3-character
minimum, truncate to a 63-character maximum.  Used only to compare against the
source's `sanitize_collection_name`. -/
def sanitizeSpecChars (s : List Char) : List Char :=
  (stripEnds (replaceBad s) ++
    List.replicate (3 - (stripEnds (replaceBad s)).length) '_').take 63

/-! ## `find_similar_cards` (lines 267–307) -/

/-- One row of a Chroma query response restricted to `where={"type":"front"}`:
the distance together with the aligned metadata record (Chroma returns the
`distances` and `metadatas` lists index-aligned). -/
structure QEntry where
  dist : ℚ
  note_id : Nat
  front : String
  back : String
deriving DecidableEq, Repr

/-- One element of the list returned by `find_similar_cards`. -/
structure Candidate where
  similarity : ℚ
  front : String
  back : String
  note_id : Nat
  match_type : Facet
deriving DecidableEq, Repr

/-- The dict appended for a query row that clears the threshold. -/
def mkCandidate (e : QEntry) : Candidate :=
  { similarity := 1 - e.dist
    front := e.front
    back := e.back
    note_id := e.note_id
    match_type := Facet.front }

/-- The accumulation loop of `find_similar_cards`: walk the query rows in
returned order, compute `similarity = 1 - distance`, and append the rows with
`similarity >= threshold`. -/
def collectSimilar (threshold : ℚ) : List QEntry → List Candidate
  | [] => []
  | e :: rest =>
    if threshold ≤ 1 - e.dist then mkCandidate e :: collectSimilar threshold rest
    else collectSimilar threshold rest

/-- The deck's vector collection as seen by the duplicate detector: `query c t`
is the response of `collection.query(query_texts=[t], n_results=5,
where={"type": "front"})` against collection `c`; `.error` models a
`ChromaError` raised by the call. -/
structure VectorDB where
  query : String → String → Except String (List QEntry)

/-- Collection name used by `get_collection` (line 68). -/
def collectionNameOf (deckName : String) : String :=
  "anki_cards_" ++ sanitize_collection_name deckName

/-- `find_similar_cards(front, back, deck_name, threshold)`: query the deck's
collection with the front text; on `ChromaError` log and return `[]`;
otherwise filter the rows by `1 - distance >= threshold` in returned order.
The `back` parameter is part of the signature but unused by the body, as in
the source. -/
def find_similar_cards (db : VectorDB) (front back deckName : String)
    (threshold : ℚ) : List Candidate :=
  match db.query (collectionNameOf deckName) front with
  | .error _ => []
  | .ok results => collectSimilar threshold results

/-! ## `add_single_card_to_vector_db` (lines 309–347) -/

/-- A Python exception escaping a modelled function. -/
structure PyError where
  msg : String
deriving DecidableEq, Repr

/-- `add_single_card_to_vector_db(note_id, deck_name)`.  `notesInfoResp` is the
AnkiConnect `notesInfo` response for `[note_id]` (`.error` covers both a
transport failure turned into an `{"error": ...}` dict and an error field in
the reply); `addRaises` tells whether `collection.add` raises `ChromaError`.
The result is `.ok b` when the source returns the boolean `b` and `.error e`
when an exception escapes: the field accesses
`note_data["fields"]["Front"]["value"]` / `...["Back"]["value"]` are not
guarded by any `try`, so a missing field raises `KeyError` to the caller. -/
def add_single_card_to_vector_db (notesInfoResp : Except String (List Card))
    (addRaises : Bool) : Except PyError Bool :=
  match notesInfoResp with
  | .error _ => .ok false
  | .ok [] => .ok false
  | .ok (note :: _) =>
    match note.front with
    | none => .error ⟨"KeyError: Front"⟩
    | some _ =>
      match note.back with
      | none => .error ⟨"KeyError: Back"⟩
      | some _ => if addRaises then .ok false else .ok true

/-! ## `get_deck_cards` (lines 99–117) -/

/-- The AnkiConnect responses consumed by one `get_deck_cards` call:
`findNotesResp` for `findNotes` and `notesInfoResp` for the follow-up
`notesInfo`.  `.error m` models `invoke_anki_connect` returning
`{"error": m}` (connectivity failure, invalid JSON, or an error field). -/
structure NoteSource where
  findNotesResp : Except String (List Nat)
  notesInfoResp : Except String (List Card)
deriving Repr

/-- `get_deck_cards(deck_name)`: on a `findNotes` error return `[]`; on an
empty id list return `[]`; on a `notesInfo` error return `[]`; otherwise
return the notes. -/
def get_deck_cards (src : NoteSource) : List Card :=
  match src.findNotesResp with
  | .error _ => []
  | .ok noteIds =>
    if noteIds = [] then []
    else
      match src.notesInfoResp with
      | .error _ => []
      | .ok cards => cards

/-! ## `process_card_batch` (lines 119–158) -/

/-- Whether the per-card `try` block of `process_card_batch` succeeds: both
`fields["Front"]["value"]` and `fields["Back"]["value"]` exist. -/
def cardOk (c : Card) : Bool :=
  c.front.isSome && c.back.isSome

/-- `process_card_batch(cards)`: build the parallel `documents`, `metadatas`
and `ids` lists, two entries per card (`front` then `back`); a card whose
field access raises is skipped whole (the appends happen after all three
extractions). -/
def process_card_batch : List Card → List String × List Meta × List EntryId
  | [] => ([], [], [])
  | c :: rest =>
    match c.front, c.back with
    | some f, some b =>
      (f :: b :: (process_card_batch rest).1,
       ⟨c.noteId, Facet.front, f, b⟩ :: ⟨c.noteId, Facet.back, f, b⟩ ::
         (process_card_batch rest).2.1,
       (c.noteId, Facet.front) :: (c.noteId, Facet.back) ::
         (process_card_batch rest).2.2)
    | _, _ => process_card_batch rest

/-! ## `incremental_sync_deck` (lines 160–265) -/

/-- The batch partition `[new_cards[i : i + 20] for i in range(0, len, 20)]`. -/
def makeBatches (l : List Card) : List (List Card) :=
  if l = [] then []
  else l.take 20 :: makeBatches (l.drop 20)
termination_by l.length
decreasing_by
  rename_i h
  have hl : 0 < l.length := List.length_pos.mpr h
  have hd : l.length - 20 < l.length := Nat.sub_lt hl (by norm_num)
  simpa using hd

/-- The `added_count` aggregation over completed batch futures: a batch whose
`collection.add` raises `ChromaError` contributes nothing; a successful batch
contributes `len(documents) // 2`.  `fails i` tells whether batch `i`'s add
raises.  Completion order is irrelevant because addition commutes, so the
fold is taken in batch-index order. -/
def addedCount (batches : List (List Card)) (fails : Nat → Bool) : Nat :=
  (batches.enum.map fun p =>
    if fails p.1 then 0 else (process_card_batch p.2).1.length / 2).sum

/-- The set of entry ids written by the successful batches: batch `i` adds the
`ids` list produced by `process_card_batch` unless its add raises.  (When the
`documents` list is empty the source skips the `collection.add` call; the
contributed id set is empty either way.) -/
def addedEntries (batches : List (List Card)) (fails : Nat → Bool) :
    Finset EntryId :=
  (batches.enum.map fun p =>
    if fails p.1 then (∅ : Finset EntryId)
    else (process_card_batch p.2).2.2.toFinset).foldr (· ∪ ·) ∅

/-- The note-id projection used at lines 172–180: the `note_id` metadata of
the entries with `type == "front"`.  In the model an entry `(n, .front)`
carries `note_id = n`. -/
def projectNoteIds (st : Finset EntryId) : Finset Nat :=
  (st.filter fun e => e.2 = Facet.front).image Prod.fst

/-- One reachable collaborator configuration for a sync pass: the AnkiConnect
responses, the current collection contents, and the failure behaviour of each
collection call (`collection.get`, `collection.delete`, and per-batch
`collection.add`). -/
structure SyncEnv where
  source : NoteSource
  index : Finset EntryId
  getFails : Bool
  deleteFails : Bool
  batchAddFails : Nat → Bool

/-- `current_note_ids` (line 186). -/
def currentIdsOf (env : SyncEnv) : Finset Nat :=
  ((get_deck_cards env.source).map Card.noteId).toFinset

/-- `existing_note_ids` (lines 172–183): the front-entry projection of the
collection, or `∅` when `collection.get` raises (the exception is caught and
`existing_note_ids` is set to the empty set). -/
def existingIdsOf (env : SyncEnv) : Finset Nat :=
  if env.getFails then ∅ else projectNoteIds env.index

/-- `new_note_ids = current_note_ids - existing_note_ids` (line 187). -/
def toAddSet (env : SyncEnv) : Finset Nat :=
  currentIdsOf env \ existingIdsOf env

/-- `removed_note_ids = existing_note_ids - current_note_ids` (line 188). -/
def toRemoveSet (env : SyncEnv) : Finset Nat :=
  existingIdsOf env \ currentIdsOf env

/-- The removal step (lines 190–199): when `removed_note_ids` is non-empty,
delete `{id}_front` and `{id}_back` for every removed id; the delete is
best-effort — a raised exception is caught, leaving the collection as it was.
Removing both facets of each removed id is the same as dropping every entry
whose note id is in the removed set. -/
def removalPhase (env : SyncEnv) : Finset EntryId :=
  if toRemoveSet env ≠ ∅ then
    if env.deleteFails then env.index
    else env.index.filter fun e => e.1 ∉ toRemoveSet env
  else env.index

/-- `new_cards` (line 206): the fetched cards whose note id is in
`new_note_ids`. -/
def newCards (env : SyncEnv) : List Card :=
  (get_deck_cards env.source).filter fun c => c.noteId ∈ toAddSet env

/-- `incremental_sync_deck(deck_name)`, returning the final collection state
together with the function's return value (the int `added_count`).

Mirrors the source's sequencing: early return `0` when `get_deck_cards` is
empty; compute the two set differences from the (possibly empty-on-exception)
existing projection; apply the best-effort removal; early return `0` when
there is nothing to add; otherwise partition the new cards into batches of 20
and add them, each batch failing independently.  `collection.add` is modelled
as set union: on the executed paths the written entry ids are fresh. -/
def incremental_sync_deck (env : SyncEnv) : Finset EntryId × Nat :=
  if get_deck_cards env.source = [] then (env.index, 0)
  else if toAddSet env = ∅ then (removalPhase env, 0)
  else
    (removalPhase env ∪
       addedEntries (makeBatches (newCards env)) env.batchAddFails,
     addedCount (makeBatches (newCards env)) env.batchAddFails)

/-- The total-unavailability situations of §7 for one sync pass: the
`findNotes` call fails, or it succeeds with a non-empty id list and the
`notesInfo` call fails.  (These are exactly the paths on which
`get_deck_cards` hits an `error` response.) -/
def sourceConnFailed (src : NoteSource) : Prop :=
  (∃ m, src.findNotesResp = Except.error m) ∨
  (∃ ids m, src.findNotesResp = Except.ok ids ∧ ids ≠ [] ∧
    src.notesInfoResp = Except.error m)

/-! ## Helper lemmas about the pipeline pieces -/

theorem process_docs_length (b : List Card) :
    (process_card_batch b).1.length = 2 * (b.filter cardOk).length := by
  induction b with
  | nil => rfl
  | cons c rest ih =>
    rcases hf : c.front with _ | f <;> rcases hb : c.back with _ | bb <;>
      simp [process_card_batch, hf, hb, cardOk, ih] <;> omega

theorem front_mem_process_ids (b : List Card) (n : Nat) :
    (n, Facet.front) ∈ (process_card_batch b).2.2 ↔
      n ∈ (b.filter cardOk).map Card.noteId := by
  induction b with
  | nil => simp [process_card_batch]
  | cons c rest ih =>
    rcases hf : c.front with _ | f <;> rcases hb : c.back with _ | bb <;>
      simp [process_card_batch, hf, hb, cardOk, ih]

theorem mem_projectNoteIds (st : Finset EntryId) (n : Nat) :
    n ∈ projectNoteIds st ↔ (n, Facet.front) ∈ st := by
  unfold projectNoteIds
  constructor
  · intro h
    obtain ⟨e, he, hfst⟩ := Finset.mem_image.mp h
    obtain ⟨hmem, hface⟩ := Finset.mem_filter.mp he
    obtain ⟨a, f⟩ := e
    cases hface
    cases hfst
    exact hmem
  · intro h
    exact Finset.mem_image.mpr ⟨(n, Facet.front), Finset.mem_filter.mpr ⟨h, rfl⟩, rfl⟩

theorem projectNoteIds_union (s t : Finset EntryId) :
    projectNoteIds (s ∪ t) = projectNoteIds s ∪ projectNoteIds t := by
  ext n
  simp [mem_projectNoteIds, Finset.mem_union]

theorem projectNoteIds_filter_not_mem (st : Finset EntryId) (R : Finset Nat) :
    projectNoteIds (st.filter fun e => e.1 ∉ R) = projectNoteIds st \ R := by
  ext n
  simp [mem_projectNoteIds, Finset.mem_sdiff, Finset.mem_filter]

theorem mem_foldr_union {α β : Type} [DecidableEq β] (g : α → Finset β)
    (l : List α) (x : β) :
    x ∈ (l.map g).foldr (· ∪ ·) ∅ ↔ ∃ a ∈ l, x ∈ g a := by
  induction l with
  | nil => simp
  | cons a rest ih => simp [ih]

theorem snd_mem_of_mem_enumFrom {α : Type} :
    ∀ {k : Nat} {p : Nat × α} {l : List α}, p ∈ l.enumFrom k → p.2 ∈ l := by
  intro k p l
  induction l generalizing k with
  | nil => simp [List.enumFrom]
  | cons a rest ih =>
    intro h
    simp only [List.enumFrom, List.mem_cons] at h
    rcases h with rfl | h
    · exact List.mem_cons_self _ _
    · exact List.mem_cons_of_mem _ (ih h)

theorem exists_fst_mem_enumFrom {α : Type} {l : List α} {b : α} (hb : b ∈ l) :
    ∀ k, ∃ i, (i, b) ∈ l.enumFrom k := by
  induction l with
  | nil => cases hb
  | cons a rest ih =>
    intro k
    rcases List.mem_cons.mp hb with rfl | h
    · exact ⟨k, List.mem_cons_self _ _⟩
    · obtain ⟨i, hi⟩ := ih h (k + 1)
      exact ⟨i, List.mem_cons_of_mem _ hi⟩

theorem mem_addedEntries (batches : List (List Card)) (fails : Nat → Bool)
    (x : EntryId) :
    x ∈ addedEntries batches fails ↔
      ∃ p ∈ batches.enum, fails p.1 = false ∧
        x ∈ (process_card_batch p.2).2.2 := by
  unfold addedEntries
  rw [mem_foldr_union]
  refine exists_congr fun p => and_congr_right fun _ => ?_
  cases hfp : fails p.1 <;> simp [hfp]

theorem mem_addedEntries_no_fail (batches : List (List Card))
    (fails : Nat → Bool) (hf : ∀ i, fails i = false) (x : EntryId) :
    x ∈ addedEntries batches fails ↔
      ∃ b ∈ batches, x ∈ (process_card_batch b).2.2 := by
  rw [mem_addedEntries]
  constructor
  · rintro ⟨p, hp, -, hx⟩
    exact ⟨p.2, snd_mem_of_mem_enumFrom hp, hx⟩
  · rintro ⟨b, hb, hx⟩
    obtain ⟨i, hi⟩ := exists_fst_mem_enumFrom hb 0
    exact ⟨(i, b), hi, hf i, hx⟩

theorem makeBatches_flatten (l : List Card) : (makeBatches l).flatten = l := by
  by_cases h : l = []
  · subst h; simp [makeBatches]
  · rw [makeBatches, if_neg h, List.flatten_cons, makeBatches_flatten (l.drop 20),
      List.take_append_drop]
termination_by l.length
decreasing_by
  have hl : 0 < l.length := List.length_pos.mpr h
  have hd : l.length - 20 < l.length := Nat.sub_lt hl (by norm_num)
  simpa using hd

theorem addedCount_enumFrom_filter (fails : Nat → Bool) :
    ∀ (k : Nat) (bs : List (List Card)),
      ((bs.enumFrom k).map fun p =>
          if fails p.1 then 0 else (process_card_batch p.2).1.length / 2).sum
        = (((bs.enumFrom k).filter fun p => !fails p.1).map
            fun p => (p.2.filter cardOk).length).sum := by
  intro k bs
  induction bs generalizing k with
  | nil => rfl
  | cons b rest ih =>
    have hdocs : (process_card_batch b).1.length / 2 = (b.filter cardOk).length := by
      rw [process_docs_length]
      exact Nat.mul_div_cancel_left _ (by norm_num)
    cases hfk : fails k <;>
      simp [List.enumFrom, hfk, ih (k + 1), hdocs]

theorem addedCount_filter (batches : List (List Card)) (fails : Nat → Bool) :
    addedCount batches fails
      = ((batches.enum.filter fun p => !fails p.1).map
          fun p => (p.2.filter cardOk).length).sum := by
  unfold addedCount
  exact addedCount_enumFrom_filter fails 0 batches

theorem addedCount_no_fail (batches : List (List Card)) (fails : Nat → Bool)
    (hf : ∀ i, fails i = false) :
    addedCount batches fails
      = (batches.map fun b => (b.filter cardOk).length).sum := by
  rw [addedCount_filter]
  have hfilter : (batches.enum.filter fun p => !fails p.1) = batches.enum := by
    apply List.filter_eq_self.mpr
    intro p _
    simp [hf p.1]
  rw [hfilter]
  have : ∀ (k : Nat) (bs : List (List Card)),
      ((bs.enumFrom k).map fun p => (p.2.filter cardOk).length).sum
        = (bs.map fun b => (b.filter cardOk).length).sum := by
    intro k bs
    induction bs generalizing k with
    | nil => rfl
    | cons b rest ih => simp [List.enumFrom, ih (k + 1)]
  exact this 0 batches

theorem length_filter_flatten (L : List (List Card)) (p : Card → Bool) :
    (L.flatten.filter p).length = (L.map fun b => (b.filter p).length).sum := by
  induction L with
  | nil => rfl
  | cons b rest ih =>
    simp only [List.flatten_cons, List.filter_append, List.length_append, ih,
      List.map_cons, List.sum_cons]

theorem projectNoteIds_addedEntries_no_fail (batches : List (List Card))
    (fails : Nat → Bool) (hf : ∀ i, fails i = false) :
    projectNoteIds (addedEntries batches fails)
      = ((batches.flatten.filter cardOk).map Card.noteId).toFinset := by
  ext n
  rw [mem_projectNoteIds, mem_addedEntries_no_fail _ _ hf]
  simp only [List.mem_toFinset]
  constructor
  · rintro ⟨b, hb, hmem⟩
    rw [front_mem_process_ids] at hmem
    obtain ⟨c, hc, rfl⟩ := List.mem_map.mp hmem
    obtain ⟨hcb, hok⟩ := List.mem_filter.mp hc
    exact List.mem_map.mpr ⟨c, List.mem_filter.mpr
      ⟨List.mem_flatten.mpr ⟨b, hb, hcb⟩, hok⟩, rfl⟩
  · intro hmem
    obtain ⟨c, hc, rfl⟩ := List.mem_map.mp hmem
    obtain ⟨hcb, hok⟩ := List.mem_filter.mp hc
    obtain ⟨b, hb, hcb'⟩ := List.mem_flatten.mp hcb
    refine ⟨b, hb, ?_⟩
    rw [front_mem_process_ids]
    exact List.mem_map.mpr ⟨c, List.mem_filter.mpr ⟨hcb', hok⟩, rfl⟩

theorem newCards_ids_toFinset (env : SyncEnv) :
    ((newCards env).map Card.noteId).toFinset = toAddSet env := by
  ext n
  simp only [newCards, List.mem_toFinset, List.mem_map, List.mem_filter,
    decide_eq_true_eq]
  constructor
  · rintro ⟨c, ⟨_, hmem⟩, rfl⟩
    exact hmem
  · intro hn
    have hcur : n ∈ currentIdsOf env := (Finset.mem_sdiff.mp hn).1
    unfold currentIdsOf at hcur
    obtain ⟨c, hc, rfl⟩ := List.mem_map.mp (List.mem_toFinset.mp hcur)
    exact ⟨c, ⟨hc, hn⟩, rfl⟩

theorem newCards_subset (env : SyncEnv) {c : Card} (hc : c ∈ newCards env) :
    c ∈ get_deck_cards env.source :=
  (List.mem_filter.mp hc).1

theorem projectNoteIds_removalPhase (env : SyncEnv)
    (hd : env.deleteFails = false) :
    projectNoteIds (removalPhase env)
      = projectNoteIds env.index \ toRemoveSet env := by
  unfold removalPhase
  by_cases hR : toRemoveSet env ≠ ∅
  · rw [if_pos hR, hd, if_neg (by simp), projectNoteIds_filter_not_mem]
  · rw [if_neg hR]
    push_neg at hR
    rw [hR, Finset.sdiff_empty]

theorem existingIdsOf_eq (env : SyncEnv) (hg : env.getFails = false) :
    existingIdsOf env = projectNoteIds env.index := by
  simp [existingIdsOf, hg]

theorem projectNoteIds_removalPhase_inter (env : SyncEnv)
    (hg : env.getFails = false) (hd : env.deleteFails = false) :
    projectNoteIds (removalPhase env)
      = existingIdsOf env ∩ currentIdsOf env := by
  rw [projectNoteIds_removalPhase env hd, ← existingIdsOf_eq env hg]
  unfold toRemoveSet
  exact Finset.sdiff_sdiff_self_left _ _

/-- Core convergence lemma: on a pass where `get_deck_cards` is non-empty, no
collection call fails, and every fetched card has both fields, the note-id
projection of the final collection equals the fetched id set. -/
theorem sync_project_converges (env : SyncEnv)
    (hg : env.getFails = false) (hd : env.deleteFails = false)
    (hb : ∀ i, env.batchAddFails i = false)
    (hwf : ∀ c ∈ get_deck_cards env.source, cardOk c = true)
    (hne : get_deck_cards env.source ≠ []) :
    projectNoteIds (incremental_sync_deck env).1 = currentIdsOf env := by
  have hrem := projectNoteIds_removalPhase_inter env hg hd
  unfold incremental_sync_deck
  rw [if_neg hne]
  by_cases hadd : toAddSet env = ∅
  · rw [if_pos hadd]
    have hsub : currentIdsOf env ⊆ existingIdsOf env := by
      rw [← Finset.sdiff_eq_empty_iff_subset]
      exact hadd
    rw [hrem]
    exact Finset.inter_eq_right.mpr hsub
  · rw [if_neg hadd]
    have hwf' : (newCards env).filter cardOk = newCards env :=
      List.filter_eq_self.mpr fun c hc => hwf c (newCards_subset env hc)
    rw [projectNoteIds_union, hrem,
      projectNoteIds_addedEntries_no_fail _ _ hb, makeBatches_flatten, hwf',
      newCards_ids_toFinset]
    unfold toAddSet
    ext n
    simp only [Finset.mem_union, Finset.mem_inter, Finset.mem_sdiff]
    tauto

/-! ## Helper lemmas about the sanitizer -/

theorem sanitizeChars_eq_spec (l : List Char) :
    sanitizeChars l = sanitizeSpecChars l := by
  unfold sanitizeChars sanitizeSpecChars truncate63 padTo3
  generalize stripEnds (replaceBad l) = st
  by_cases h3 : st.length < 3
  · rw [if_pos h3]
    have hlen : (st ++ List.replicate (3 - st.length) '_').length = 3 := by
      simp only [List.length_append, List.length_replicate]
      omega
    rw [if_neg (by rw [hlen]; norm_num)]
    exact (List.take_of_length_le (by rw [hlen]; norm_num)).symm
  · rw [if_neg h3]
    push_neg at h3
    have hrep : List.replicate (3 - st.length) '_' = ([] : List Char) := by
      rw [Nat.sub_eq_zero_of_le h3]
      rfl
    rw [hrep, List.append_nil]
    by_cases h63 : st.length > 63
    · rw [if_pos h63]
    · rw [if_neg h63]
      exact (List.take_of_length_le (by omega)).symm

theorem sanitizeSpecChars_length (l : List Char) :
    3 ≤ (sanitizeSpecChars l).length ∧ (sanitizeSpecChars l).length ≤ 63 := by
  unfold sanitizeSpecChars
  generalize stripEnds (replaceBad l) = st
  simp only [List.length_take, List.length_append, List.length_replicate]
  omega

theorem sanitize_collection_name_length_eq (s : String) :
    (sanitize_collection_name s).length = (sanitizeChars s.data).length := rfl

/-! ## Helper lemmas about the duplicate detector -/

theorem collectSimilar_eq (th : ℚ) (l : List QEntry) :
    collectSimilar th l
      = (l.filter fun e => decide (th ≤ 1 - e.dist)).map mkCandidate := by
  induction l with
  | nil => rfl
  | cons e rest ih =>
    by_cases hth : th ≤ 1 - e.dist <;> simp [collectSimilar, hth, ih]

/-- A sync against an index whose projection already matches the source's
current id set does nothing: the recomputed delta is empty and the pass
returns `0` leaving the collection as it is. -/
theorem sync_with_converged_index (env : SyncEnv) (st : Finset EntryId)
    (hg : env.getFails = false)
    (hproj : projectNoteIds st = currentIdsOf env)
    (hne : get_deck_cards env.source ≠ []) :
    incremental_sync_deck { env with index := st } = (st, 0) ∧
    toAddSet { env with index := st } = ∅ ∧
    toRemoveSet { env with index := st } = ∅ := by
  have hcur : currentIdsOf { env with index := st } = currentIdsOf env := rfl
  have hex : existingIdsOf { env with index := st } = currentIdsOf env := by
    unfold existingIdsOf
    simp only [hg]
    rw [if_neg (by simp)]
    exact hproj
  have hadd : toAddSet { env with index := st } = ∅ := by
    unfold toAddSet
    rw [hcur, hex, Finset.sdiff_self]
  have hrm : toRemoveSet { env with index := st } = ∅ := by
    unfold toRemoveSet
    rw [hcur, hex, Finset.sdiff_self]
  refine ⟨?_, hadd, hrm⟩
  unfold incremental_sync_deck
  rw [if_neg hne, if_pos hadd]
  unfold removalPhase
  rw [hrm]
  simp

/-! ## Claims -/

/-- C1, counterexample: a reachable state with a non-empty index and an empty
Note-Source id set, in which no collaborator call fails.  `findNotes` succeeds
with `[]`, so `incremental_sync_deck` takes the `if not anki_cards` early
return (line 165) and leaves the index untouched: the projected id set `{1}`
differs from the source's (empty) current id set, refuting convergence as
claimed. -/
theorem sync_empty_source_no_convergence_cex :
    incremental_sync_deck
        ⟨⟨Except.ok [], Except.ok []⟩,
         {(1, Facet.front), (1, Facet.back)}, false, false, fun _ => false⟩
      = ({(1, Facet.front), (1, Facet.back)}, 0) ∧
    projectNoteIds
        (incremental_sync_deck
          ⟨⟨Except.ok [], Except.ok []⟩,
           {(1, Facet.front), (1, Facet.back)}, false, false, fun _ => false⟩).1
      ≠ currentIdsOf
          ⟨⟨Except.ok [], Except.ok []⟩,
           {(1, Facet.front), (1, Facet.back)}, false, false, fun _ => false⟩ := by
  constructor
  · decide
  · decide

/-- C1 (amended): after an `incremental_sync_deck` pass in which no
collaborator call fails and every fetched card carries both fields, the
projected note-id set of the index equals the Note Source's current id set —
provided the fetched card list is non-empty.  When the source's current id
set is empty the pass returns early and leaves the index unchanged, so a
non-empty index does not converge to the empty set. -/
theorem sync_convergence_amended (env : SyncEnv)
    (hg : env.getFails = false) (hd : env.deleteFails = false)
    (hb : ∀ i, env.batchAddFails i = false)
    (hwf : ∀ c ∈ get_deck_cards env.source, cardOk c = true) :
    (get_deck_cards env.source ≠ [] →
      projectNoteIds (incremental_sync_deck env).1 = currentIdsOf env) ∧
    (get_deck_cards env.source = [] →
      incremental_sync_deck env = (env.index, 0)) := by
  constructor
  · exact fun hne => sync_project_converges env hg hd hb hwf hne
  · intro hne
    unfold incremental_sync_deck
    rw [if_pos hne]

/-- C1 witness: a pass over a deck with one well-formed note against an empty
index converges: the projection equals the fetched id set `{1}`. -/
theorem sync_convergence_amended_witness :
    projectNoteIds
        (incremental_sync_deck
          ⟨⟨Except.ok [1], Except.ok [⟨1, some "Q", some "A"⟩]⟩,
           ∅, false, false, fun _ => false⟩).1
      = currentIdsOf
          ⟨⟨Except.ok [1], Except.ok [⟨1, some "Q", some "A"⟩]⟩,
           ∅, false, false, fun _ => false⟩ :=
  (sync_convergence_amended
    ⟨⟨Except.ok [1], Except.ok [⟨1, some "Q", some "A"⟩]⟩,
     ∅, false, false, fun _ => false⟩
    rfl rfl (fun _ => rfl) (by decide)).1 (by decide)

/-- C2, counterexample: two no-failure states over the same source whose
passes delete different numbers of notes (one and zero respectively) yet
return the very same value: `incremental_sync_deck` returns the single int
`added_count` (lines 203, 265), and no removed count is part of the return
value — refuting the claimed `{added, removed}` record contract. -/
theorem sync_return_shape_cex :
    (incremental_sync_deck
        ⟨⟨Except.ok [1], Except.ok [⟨1, some "Q", some "A"⟩]⟩,
         {(1, Facet.front), (1, Facet.back), (2, Facet.front), (2, Facet.back)},
         false, false, fun _ => false⟩).2
      = (incremental_sync_deck
          ⟨⟨Except.ok [1], Except.ok [⟨1, some "Q", some "A"⟩]⟩,
           {(1, Facet.front), (1, Facet.back)}, false, false, fun _ => false⟩).2 ∧
    toRemoveSet
        ⟨⟨Except.ok [1], Except.ok [⟨1, some "Q", some "A"⟩]⟩,
         {(1, Facet.front), (1, Facet.back), (2, Facet.front), (2, Facet.back)},
         false, false, fun _ => false⟩
      ≠ toRemoveSet
          ⟨⟨Except.ok [1], Except.ok [⟨1, some "Q", some "A"⟩]⟩,
           {(1, Facet.front), (1, Facet.back)}, false, false, fun _ => false⟩ := by
  constructor
  · decide
  · decide

/-- C2 (amended): `incremental_sync_deck` returns a single int — the number
of notes successfully ingested in this pass; the removed count is only
logged.  On a no-failure pass over distinct, well-formed fetched notes the
return value equals `|toAdd|`, the size of `current_note_ids -
existing_note_ids`. -/
theorem sync_returns_added_count_only (env : SyncEnv)
    (hg : env.getFails = false)
    (hb : ∀ i, env.batchAddFails i = false)
    (hwf : ∀ c ∈ get_deck_cards env.source, cardOk c = true)
    (hnd : ((get_deck_cards env.source).map Card.noteId).Nodup) :
    (incremental_sync_deck env).2 = (toAddSet env).card := by
  by_cases hne : get_deck_cards env.source = []
  · unfold incremental_sync_deck
    rw [if_pos hne]
    have hcur : currentIdsOf env = ∅ := by simp [currentIdsOf, hne]
    simp [toAddSet, hcur]
  · unfold incremental_sync_deck
    rw [if_neg hne]
    by_cases hadd : toAddSet env = ∅
    · rw [if_pos hadd]
      simp [hadd]
    · rw [if_neg hadd]
      show addedCount (makeBatches (newCards env)) env.batchAddFails = _
      rw [addedCount_no_fail _ _ hb, ← length_filter_flatten, makeBatches_flatten]
      have hwf' : (newCards env).filter cardOk = newCards env :=
        List.filter_eq_self.mpr fun c hc => hwf c (newCards_subset env hc)
      rw [hwf']
      have hnd' : ((newCards env).map Card.noteId).Nodup :=
        hnd.sublist ((List.filter_sublist _).map _)
      calc (newCards env).length
          = ((newCards env).map Card.noteId).length := (List.length_map _ _).symm
        _ = ((newCards env).map Card.noteId).toFinset.card :=
            (List.toFinset_card_of_nodup hnd').symm
        _ = (toAddSet env).card := by rw [newCards_ids_toFinset]

/-- C2 witness: a pass that ingests one new note (and deletes none) returns
the int `1`, the size of the to-add set. -/
theorem sync_returns_added_count_only_witness :
    (incremental_sync_deck
        ⟨⟨Except.ok [1], Except.ok [⟨1, some "Q", some "A"⟩]⟩,
         ∅, false, false, fun _ => false⟩).2 = 1 := by
  have h := sync_returns_added_count_only
    ⟨⟨Except.ok [1], Except.ok [⟨1, some "Q", some "A"⟩]⟩,
     ∅, false, false, fun _ => false⟩
    rfl (fun _ => rfl) (by decide) (by decide)
  rw [h]
  decide

/-- C3, counterexample: a `findNotes` connectivity failure produces exactly
the same observable outcome as a genuinely empty deck — `get_deck_cards`
returns `[]` (line 108) and `incremental_sync_deck` returns the normal
zero-count result with the index untouched.  No typed error reaches the
caller, refuting the claimed propagation. -/
theorem connectivity_error_as_empty_cex :
    get_deck_cards ⟨Except.error "connection refused", Except.ok []⟩ = [] ∧
    incremental_sync_deck
        ⟨⟨Except.error "connection refused", Except.ok []⟩,
         {(1, Facet.front), (1, Facet.back)}, false, false, fun _ => false⟩
      = incremental_sync_deck
          ⟨⟨Except.ok [], Except.ok []⟩,
           {(1, Facet.front), (1, Facet.back)}, false, false, fun _ => false⟩ ∧
    incremental_sync_deck
        ⟨⟨Except.error "connection refused", Except.ok []⟩,
         {(1, Facet.front), (1, Facet.back)}, false, false, fun _ => false⟩
      = ({(1, Facet.front), (1, Facet.back)}, 0) := by
  refine ⟨rfl, ?_, ?_⟩
  · decide
  · decide

/-- C3 (amended): when a Note Source call fails with a connectivity error
(`findNotes` fails, or `notesInfo` fails after a non-empty id list), the
failure is caught and logged inside `get_deck_cards`, which returns `[]`;
`incremental_sync_deck` then returns the normal zero-count result `0` and
leaves the index unchanged.  The failure is not propagated to the caller as
a typed error. -/
theorem sync_swallows_connectivity_error (env : SyncEnv)
    (h : sourceConnFailed env.source) :
    get_deck_cards env.source = [] ∧
    incremental_sync_deck env = (env.index, 0) := by
  have hempty : get_deck_cards env.source = [] := by
    rcases h with ⟨m, hm⟩ | ⟨ids, m, hids, hne, hm⟩
    · simp [get_deck_cards, hm]
    · simp [get_deck_cards, hids, hne, hm]
  refine ⟨hempty, ?_⟩
  unfold incremental_sync_deck
  rw [if_pos hempty]

/-- C3 witness: the unreachable-endpoint response leads to the zero-count
result on a concrete non-empty index. -/
theorem sync_swallows_connectivity_error_witness :
    incremental_sync_deck
        ⟨⟨Except.error "AnkiConnect request failed", Except.ok []⟩,
         {(5, Facet.front), (5, Facet.back)}, false, false, fun _ => false⟩
      = ({(5, Facet.front), (5, Facet.back)}, 0) :=
  (sync_swallows_connectivity_error
    ⟨⟨Except.error "AnkiConnect request failed", Except.ok []⟩,
     {(5, Facet.front), (5, Facet.back)}, false, false, fun _ => false⟩
    (Or.inl ⟨"AnkiConnect request failed", rfl⟩)).2

/-- C4, counterexample: a `ChromaError` raised by `collection.query` is caught
inside `find_similar_cards` (lines 282–284), which returns `[]` — the very
value returned when no entry clears the threshold.  The failure is not
retrievable by the caller, refuting the claim. -/
theorem query_failure_as_empty_cex :
    find_similar_cards ⟨fun _ _ => Except.error "ChromaError"⟩
        "What is 2+2?" "4" "Deck" (9/10)
      = find_similar_cards ⟨fun _ _ => Except.ok []⟩
          "What is 2+2?" "4" "Deck" (9/10) ∧
    find_similar_cards ⟨fun _ _ => Except.error "ChromaError"⟩
        "What is 2+2?" "4" "Deck" (9/10) = [] :=
  ⟨rfl, rfl⟩

/-- C4 (amended): a query failure against the index is caught and logged by
`find_similar_cards`, which returns the empty list — indistinguishable from
the no-duplicates result. -/
theorem find_similar_swallows_query_failure (db : VectorDB)
    (front back deckName : String) (threshold : ℚ) (m : String)
    (hq : db.query (collectionNameOf deckName) front = Except.error m) :
    find_similar_cards db front back deckName threshold = [] := by
  unfold find_similar_cards
  rw [hq]

/-- C4 witness: a concrete failing query yields the empty candidate list. -/
theorem find_similar_swallows_query_failure_witness :
    find_similar_cards ⟨fun _ _ => Except.error "query failed"⟩
        "front text" "back text" "My Deck" (1/2) = [] :=
  find_similar_swallows_query_failure ⟨fun _ _ => Except.error "query failed"⟩
    "front text" "back text" "My Deck" (1/2) "query failed" rfl

/-- C5: `sanitize_collection_name` equals the spec's four-step composition
(replace characters outside `[A-Za-z0-9_-]` with `'_'`, strip leading and
trailing non-alphanumerics, right-pad with `'_'` to length 3, truncate to
length 63); its result always has length between 3 and 63; and it is pure
and deterministic — the same input always yields the same output. -/
theorem sanitize_collection_name_spec (s : String) :
    sanitize_collection_name s = ⟨sanitizeSpecChars s.data⟩ ∧
    3 ≤ (sanitize_collection_name s).length ∧
    (sanitize_collection_name s).length ≤ 63 ∧
    ∀ t : String, s = t →
      sanitize_collection_name s = sanitize_collection_name t := by
  refine ⟨?_, ?_, ?_, ?_⟩
  · unfold sanitize_collection_name
    rw [sanitizeChars_eq_spec]
  · rw [sanitize_collection_name_length_eq, sanitizeChars_eq_spec]
    exact (sanitizeSpecChars_length s.data).1
  · rw [sanitize_collection_name_length_eq, sanitizeChars_eq_spec]
    exact (sanitizeSpecChars_length s.data).2
  · rintro t rfl
    rfl

/-- C5 witness: the bounds and determinism at the concrete input `"ab"`
(padded to length 3, as in the spec's example). -/
theorem sanitize_collection_name_spec_witness :
    3 ≤ (sanitize_collection_name "ab").length ∧
    (sanitize_collection_name "ab").length ≤ 63 ∧
    sanitize_collection_name "ab" = sanitize_collection_name "ab" :=
  ⟨(sanitize_collection_name_spec "ab").2.1,
   (sanitize_collection_name_spec "ab").2.2.1,
   (sanitize_collection_name_spec "ab").2.2.2 "ab" rfl⟩

/-- C6: on a successful query, `find_similar_cards` returns exactly the rows
whose similarity `1 - distance` is at least the threshold, mapped to
candidates in the underlying query's order (a filter, never re-sorted); in
particular a row whose similarity equals the threshold exactly is included. -/
theorem find_similar_threshold_filter (db : VectorDB)
    (front back deckName : String) (threshold : ℚ) (entries : List QEntry)
    (hq : db.query (collectionNameOf deckName) front = Except.ok entries) :
    find_similar_cards db front back deckName threshold
      = (entries.filter fun e => decide (threshold ≤ 1 - e.dist)).map
          mkCandidate ∧
    ∀ e ∈ entries, 1 - e.dist = threshold →
      mkCandidate e ∈ find_similar_cards db front back deckName threshold := by
  have hmain : find_similar_cards db front back deckName threshold
      = (entries.filter fun e => decide (threshold ≤ 1 - e.dist)).map
          mkCandidate := by
    unfold find_similar_cards
    rw [hq]
    exact collectSimilar_eq threshold entries
  refine ⟨hmain, ?_⟩
  intro e he hth
  rw [hmain]
  exact List.mem_map.mpr ⟨e, List.mem_filter.mpr ⟨he, by simp [hth]⟩, rfl⟩

/-- C6 witness: with threshold `1/2`, a row at distance `1/2` (similarity
exactly `1/2`) is kept and a row at distance `3/4` is dropped, in query
order. -/
theorem find_similar_threshold_filter_witness :
    find_similar_cards
        ⟨fun _ _ => Except.ok [⟨1/2, 7, "f7", "b7"⟩, ⟨3/4, 8, "f8", "b8"⟩]⟩
        "q" "x" "D" (1/2)
      = [mkCandidate ⟨1/2, 7, "f7", "b7"⟩] := by
  have h := find_similar_threshold_filter
    ⟨fun _ _ => Except.ok [⟨1/2, 7, "f7", "b7"⟩, ⟨3/4, 8, "f8", "b8"⟩]⟩
    "q" "x" "D" (1/2) [⟨1/2, 7, "f7", "b7"⟩, ⟨3/4, 8, "f8", "b8"⟩] rfl
  rw [h.1]
  norm_num [List.filter]

/-- C7: batch isolation in the parallel add loop (lines 215–257).  The
aggregate `added_count` equals the sum, over the batches whose
`collection.add` did not raise, of the per-batch processed-card count
(`len(documents) // 2`); a failed batch contributes zero and does not
disturb the other batches' contributions.  When every card is well-formed
the per-batch count is the batch's length, giving the claim's "sum of notes
in the non-failed batches". -/
theorem ingest_batch_isolation (batches : List (List Card))
    (fails : Nat → Bool) :
    addedCount batches fails
      = ((batches.enum.filter fun p => !fails p.1).map
          fun p => (p.2.filter cardOk).length).sum ∧
    ((∀ b ∈ batches, ∀ c ∈ b, cardOk c = true) →
      addedCount batches fails
        = ((batches.enum.filter fun p => !fails p.1).map
            fun p => p.2.length).sum) := by
  refine ⟨addedCount_filter batches fails, fun hwf => ?_⟩
  rw [addedCount_filter]
  refine congrArg List.sum (List.map_congr_left ?_)
  intro p hp
  have hpb : p.2 ∈ batches :=
    snd_mem_of_mem_enumFrom (List.mem_of_mem_filter hp)
  rw [List.filter_eq_self.mpr fun c hc => hwf p.2 hpb c hc]

/-- C7 witness: three singleton batches with the middle batch's add failing
yield an aggregate count of 2 — the notes of batches 0 and 2. -/
theorem ingest_batch_isolation_witness :
    addedCount
        [[⟨1, some "f1", some "b1"⟩], [⟨2, some "f2", some "b2"⟩],
         [⟨3, some "f3", some "b3"⟩]]
        (fun i => decide (i = 1))
      = 2 := by
  have h := (ingest_batch_isolation
    [[⟨1, some "f1", some "b1"⟩], [⟨2, some "f2", some "b2"⟩],
     [⟨3, some "f3", some "b3"⟩]]
    (fun i => decide (i = 1))).2 (by decide)
  rw [h]
  decide

/-- C8: idempotence.  Re-running `incremental_sync_deck` on the state left by
a pass in which no collaborator call failed (all fetched cards well-formed)
returns `0` with the collection unchanged, and — whenever the first pass saw
a non-empty deck — the recomputed to-add and to-remove sets of the second
pass are both empty (the `{added: 0, removed: 0}` delta). -/
theorem sync_idempotent (env : SyncEnv)
    (hg : env.getFails = false) (hd : env.deleteFails = false)
    (hb : ∀ i, env.batchAddFails i = false)
    (hwf : ∀ c ∈ get_deck_cards env.source, cardOk c = true) :
    incremental_sync_deck { env with index := (incremental_sync_deck env).1 }
      = ((incremental_sync_deck env).1, 0) ∧
    (get_deck_cards env.source ≠ [] →
      toAddSet { env with index := (incremental_sync_deck env).1 } = ∅ ∧
      toRemoveSet { env with index := (incremental_sync_deck env).1 } = ∅) := by
  by_cases hne : get_deck_cards env.source = []
  · refine ⟨?_, fun h => absurd hne h⟩
    unfold incremental_sync_deck
    rw [if_pos hne]
  · have hproj : projectNoteIds (incremental_sync_deck env).1 = currentIdsOf env :=
      sync_project_converges env hg hd hb hwf hne
    have h2 := sync_with_converged_index env (incremental_sync_deck env).1 hg
      hproj hne
    exact ⟨h2.1, fun _ => ⟨h2.2.1, h2.2.2⟩⟩

/-- C8 witness: after syncing one note into an empty index, a second pass
returns `0` and leaves the collection as the first pass left it. -/
theorem sync_idempotent_witness :
    incremental_sync_deck
        { (⟨⟨Except.ok [1], Except.ok [⟨1, some "Q", some "A"⟩]⟩,
            ∅, false, false, fun _ => false⟩ : SyncEnv) with
          index := (incremental_sync_deck
            ⟨⟨Except.ok [1], Except.ok [⟨1, some "Q", some "A"⟩]⟩,
             ∅, false, false, fun _ => false⟩).1 }
      = ((incremental_sync_deck
          ⟨⟨Except.ok [1], Except.ok [⟨1, some "Q", some "A"⟩]⟩,
           ∅, false, false, fun _ => false⟩).1, 0) :=
  (sync_idempotent
    ⟨⟨Except.ok [1], Except.ok [⟨1, some "Q", some "A"⟩]⟩,
     ∅, false, false, fun _ => false⟩
    rfl rfl (fun _ => rfl) (by decide)).1

/-- C9, counterexample: a fetched note whose `fields` lack `Front` makes
`add_single_card_to_vector_db` raise `KeyError` (line 321 is outside any
`try`), instead of returning `False`: an exception escapes to the caller,
refuting the claimed always-boolean contract. -/
theorem add_single_malformed_raises_cex :
    add_single_card_to_vector_db (Except.ok [⟨1, none, some "4"⟩]) false
      = Except.error ⟨"KeyError: Front"⟩ ∧
    ¬ ∃ b : Bool,
      add_single_card_to_vector_db (Except.ok [⟨1, none, some "4"⟩]) false
        = Except.ok b := by
  refine ⟨rfl, ?_⟩
  rintro ⟨b, hb⟩
  simp [add_single_card_to_vector_db] at hb

/-- C9 (amended): `add_single_card_to_vector_db` returns `False` on an
AnkiConnect error or an empty `notesInfo` result, and returns a boolean
(success of the `collection.add`) when the fetched note has both fields; but
an exception escapes exactly when the fetched note is missing its `Front` or
`Back` field — that case is not converted into `False`. -/
theorem add_single_card_behaviour (resp : Except String (List Card))
    (addRaises : Bool) :
    (∀ m, resp = Except.error m →
      add_single_card_to_vector_db resp addRaises = Except.ok false) ∧
    (resp = Except.ok [] →
      add_single_card_to_vector_db resp addRaises = Except.ok false) ∧
    (∀ c rest, resp = Except.ok (c :: rest) → cardOk c = true →
      add_single_card_to_vector_db resp addRaises = Except.ok (!addRaises)) ∧
    ((∃ e, add_single_card_to_vector_db resp addRaises = Except.error e) ↔
      ∃ c rest, resp = Except.ok (c :: rest) ∧
        (c.front = none ∨ c.back = none)) := by
  refine ⟨?_, ?_, ?_, ?_⟩
  · rintro m rfl
    rfl
  · rintro rfl
    rfl
  · rintro c rest rfl hok
    rw [cardOk, Bool.and_eq_true] at hok
    obtain ⟨f, hf⟩ := Option.isSome_iff_exists.mp hok.1
    obtain ⟨bk, hbk⟩ := Option.isSome_iff_exists.mp hok.2
    cases addRaises <;> simp [add_single_card_to_vector_db, hf, hbk]
  · constructor
    · rintro ⟨e, he⟩
      rcases resp with m | cards
      · simp [add_single_card_to_vector_db] at he
      · rcases cards with _ | ⟨c, rest⟩
        · simp [add_single_card_to_vector_db] at he
        · rcases hf : c.front with _ | f
          · exact ⟨c, rest, rfl, Or.inl hf⟩
          · rcases hbk : c.back with _ | bk
            · exact ⟨c, rest, rfl, Or.inr hbk⟩
            · cases addRaises <;>
                simp [add_single_card_to_vector_db, hf, hbk] at he
    · rintro ⟨c, rest, rfl, hcase⟩
      rcases hcase with hf | hbk
      · exact ⟨⟨"KeyError: Front"⟩, by simp [add_single_card_to_vector_db, hf]⟩
      · rcases hf : c.front with _ | f
        · exact ⟨⟨"KeyError: Front"⟩,
            by simp [add_single_card_to_vector_db, hf]⟩
        · exact ⟨⟨"KeyError: Back"⟩,
            by simp [add_single_card_to_vector_db, hf, hbk]⟩

/-- C9 witness: a well-formed fetched note with a succeeding add returns
`True`. -/
theorem add_single_card_behaviour_witness :
    add_single_card_to_vector_db (Except.ok [⟨2, some "Q", some "A"⟩]) false
      = Except.ok true :=
  (add_single_card_behaviour (Except.ok [⟨2, some "Q", some "A"⟩])
    false).2.2.1 ⟨2, some "Q", some "A"⟩ [] rfl rfl

/-- C10: noninterference of the `back` argument.  Two `find_similar_cards`
calls agreeing on the front text, deck name, threshold and index state, but
differing in `back`, return identical candidate lists: the body queries only
with the front text and never reads `back`. -/
theorem find_similar_back_noninterference (db : VectorDB)
    (front b1 b2 deckName : String) (threshold : ℚ) :
    find_similar_cards db front b1 deckName threshold
      = find_similar_cards db front b2 deckName threshold := rfl

end AnkiVector
